import Mathlib

/-!
# Verification of the POS sale-commitment core

Shallow embedding of the point-of-sale back end's sale-commitment core
(`createSale` and friends in `src/unnamed/part_000`, the product handlers in
`src/server/src/handlers/products.ts`, and the zod input schema in
`src/unnamed/part_003`), together with proofs and refutations of the
specification's claims about it.

Modelling conventions:
* Database tables become lists of rows; the serial primary keys of the
  `transactions` and `transaction_items` tables become explicit counters.
* Monetary `numeric` columns are modelled as exact rationals (`Rat`); the
  claims settled here do not depend on binary floating-point rounding.
* Quantities are modelled as `Int` (the `integer` column type), ids as `Nat`.
* `Date` timestamp columns are omitted: no settled claim mentions time.
* Thrown JS `Error`s become an `Except` result carrying a structured error
  that records exactly the data the thrown message interpolates.  Because a
  throw interrupts the handler, `createSale` returns the (possibly mutated)
  database state alongside the `Except` result, so "no mutation on failure"
  is a provable statement rather than a modelling artifact.
-/

namespace POS

/-- A row of the `products` table (`src/server/src/db/schema.ts`):
serial id, name, `numeric(10,2)` price, integer stock, owning user id.
Timestamp columns are omitted. -/
structure Product where
  id : Nat
  name : String
  price : Rat
  stock_quantity : Int
  user_id : Nat
deriving DecidableEq

/-- One line of a `CreateSaleInput` (`saleItemInputSchema` in
`src/unnamed/part_003`): a product id and a requested quantity. -/
structure SaleItem where
  product_id : Nat
  quantity : Int
deriving DecidableEq

/-- A row of the `transactions` table: serial id, owning user id and the
`numeric(10,2)` total.  Timestamp columns are omitted. -/
structure TransactionRow where
  id : Nat
  user_id : Nat
  total_amount : Rat
deriving DecidableEq

/-- A row of the `transaction_items` table: serial id, parent transaction id,
product id, quantity, snapshotted unit price, and subtotal. -/
structure TransactionItemRow where
  id : Nat
  transaction_id : Nat
  product_id : Nat
  quantity : Int
  unit_price : Rat
  subtotal : Rat
deriving DecidableEq

/-- The database state seen by the handlers: users are reduced to the list of
their ids (the handlers only ever test existence of a user id), the other
tables are lists of rows, and the two serial-id sequences the handlers consume
are explicit counters. -/
structure DB where
  users : List Nat
  products : List Product
  transactions : List TransactionRow
  transactionItems : List TransactionItemRow
  nextTransactionId : Nat
  nextItemId : Nat
deriving DecidableEq

/-- The errors `createSale` and the route around it can surface, each carrying
exactly the data the corresponding thrown message interpolates:
`User not found`, `Product with id ... not found or not owned by user`,
`Insufficient stock for product <name>. Available: ..., Requested: ...`,
plus the zod rejection of a malformed request body. -/
inductive SaleError where
  | validationError : SaleError
  | userNotFound : SaleError
  | productNotFound (productId : Nat) : SaleError
  | insufficientStock (productId : Nat) (name : String)
      (available : Int) (requested : Int) : SaleError
deriving DecidableEq

/-- The per-line record `createSale` accumulates while validating
(`productDetails` in `src/unnamed/part_000`): resolved product id, name,
price, the stock read during validation, the requested quantity, and the
line subtotal `price * quantity`. -/
structure ProductDetail where
  id : Nat
  name : String
  price : Rat
  stock_quantity : Int
  quantity : Int
  subtotal : Rat
deriving DecidableEq

/-- The product lookup of `createSale`'s validation loop:
`select from products where id = item.product_id and user_id = userId limit 1`. -/
def findProduct (db : DB) (pid uid : Nat) : Option Product :=
  db.products.find? (fun p => p.id == pid && p.user_id == uid)

/-- The `productDetails` entry built for one cart line from its resolved
product row. -/
def mkDetail (p : Product) (it : SaleItem) : ProductDetail :=
  { id := p.id
    name := p.name
    price := p.price
    stock_quantity := p.stock_quantity
    quantity := it.quantity
    subtotal := p.price * (it.quantity : Rat) }

/-- The validation loop of `createSale`: for each cart line in caller order,
resolve the product scoped to the requesting user (else
`productNotFound`), check `stock_quantity < quantity` (else
`insufficientStock`), and collect the pricing detail.  No write happens in
this phase. -/
def validateItems (db : DB) (uid : Nat) : List SaleItem → Except SaleError (List ProductDetail)
  | [] => .ok []
  | it :: rest =>
    match findProduct db it.product_id uid with
    | none => .error (.productNotFound it.product_id)
    | some p =>
      if p.stock_quantity < it.quantity then
        .error (.insufficientStock p.id p.name p.stock_quantity it.quantity)
      else
        match validateItems db uid rest with
        | .error e => .error e
        | .ok ds => .ok (mkDetail p it :: ds)

/-- One stock write of `createSale`'s commit loop:
`update products set stock_quantity = detail.stock_quantity - detail.quantity
where id = detail.id` (note: the `where` clause filters on the product id
only). -/
def applyOne (d : ProductDetail) (p : Product) : Product :=
  if p.id == d.id then { p with stock_quantity := d.stock_quantity - d.quantity } else p

/-- The effect of one stock update statement on the whole `products` table. -/
def applyDetail (ps : List Product) (d : ProductDetail) : List Product :=
  ps.map (applyOne d)

/-- The commit loop of `createSale`: for each pricing detail in order, insert
one `transaction_items` row and overwrite the product's stock with
`detail.stock_quantity - detail.quantity`. -/
def commitItems (txId : Nat) : DB → List ProductDetail → DB
  | db, [] => db
  | db, d :: ds =>
    commitItems txId
      { db with
        transactionItems := db.transactionItems ++
          [{ id := db.nextItemId
             transaction_id := txId
             product_id := d.id
             quantity := d.quantity
             unit_price := d.price
             subtotal := d.subtotal }]
        nextItemId := db.nextItemId + 1
        products := applyDetail db.products d } ds

/-- `createSale` from `src/unnamed/part_000`: verify the user exists, run the
validation loop over the cart lines in caller order, then insert the
`transactions` row and run the commit loop.  The returned `DB` is the state
after the call, whether it succeeded or threw. -/
def createSale (db : DB) (items : List SaleItem) (uid : Nat) :
    DB × Except SaleError TransactionRow :=
  if db.users.contains uid then
    match validateItems db uid items with
    | .error e => (db, .error e)
    | .ok ds =>
      let total : Rat := (ds.map (fun d => d.subtotal)).sum
      let tx : TransactionRow :=
        { id := db.nextTransactionId, user_id := uid, total_amount := total }
      let db1 : DB :=
        { db with
          transactions := db.transactions ++ [tx]
          nextTransactionId := db.nextTransactionId + 1 }
      (commitItems tx.id db1 ds, .ok tx)
  else (db, .error .userNotFound)

/-- Modelled from the spec: the tRPC route for sale creation applies
`createSaleInputSchema` (`src/unnamed/part_003`: a non-empty `items` array of
lines with positive integer quantities) to the request body before the
`createSale` handler runs; the route definition file itself is not among the
sources.  Quantities are already integers in this embedding, so the schema's
residual checks are non-emptiness and positivity. -/
def createSaleRoute (db : DB) (items : List SaleItem) (uid : Nat) :
    DB × Except SaleError TransactionRow :=
  if items.isEmpty || items.any (fun it => decide (it.quantity ≤ 0)) then
    (db, .error .validationError)
  else createSale db items uid

/-- `updateProductInputSchema` (`src/unnamed/part_003`): the product id plus
optional replacement name, price and stock. -/
structure UpdateProductInput where
  id : Nat
  name : Option String
  price : Option Rat
  stock_quantity : Option Int
deriving DecidableEq

/-- The field patch `updateProduct` builds (`updateData` in
`src/server/src/handlers/products.ts`): only the provided fields change. -/
def applyUpdate (inp : UpdateProductInput) (p : Product) : Product :=
  { p with
    name := inp.name.getD p.name
    price := inp.price.getD p.price
    stock_quantity := inp.stock_quantity.getD p.stock_quantity }

/-- `updateProduct` from `src/server/src/handlers/products.ts`: resolve the
product scoped to the user (else throw `Product not found`), then update the
provided fields of the rows matching `id = input.id and user_id = userId`
and return the updated row. -/
def updateProduct (db : DB) (inp : UpdateProductInput) (uid : Nat) :
    DB × Except SaleError Product :=
  match findProduct db inp.id uid with
  | none => (db, .error (.productNotFound inp.id))
  | some p₀ =>
    ({ db with
       products := db.products.map (fun p =>
         if p.id == inp.id && p.user_id == uid then applyUpdate inp p else p) },
     .ok (applyUpdate inp p₀))

/-! ## Derived descriptions of the commit loop -/

-- Equality of `Except` results is decidable; used to evaluate the model on
-- concrete inputs.
deriving instance DecidableEq for Except

/-- The pricing detail the validation loop produces for one cart line (a
description of `validateItems`, with arbitrary filler when the line does not
resolve — the filler is never reached on a successful validation). -/
def detailOf (db : DB) (uid : Nat) (it : SaleItem) : ProductDetail :=
  match findProduct db it.product_id uid with
  | some p => mkDetail p it
  | none =>
    { id := it.product_id, name := "", price := 0, stock_quantity := 0,
      quantity := it.quantity, subtotal := 0 }

/-- The unit price a cart line resolves to (0 when the line does not
resolve). -/
def priceAt (db : DB) (uid : Nat) (it : SaleItem) : Rat :=
  match findProduct db it.product_id uid with
  | some p => p.price
  | none => 0

/-- The `transaction_items` rows the commit loop inserts, with serial ids
starting at `itemId`. -/
def rowsFrom (itemId txId : Nat) : List ProductDetail → List TransactionItemRow
  | [] => []
  | d :: ds =>
    { id := itemId, transaction_id := txId, product_id := d.id,
      quantity := d.quantity, unit_price := d.price, subtotal := d.subtotal }
      :: rowsFrom (itemId + 1) txId ds

/-- The last pricing detail for a given product id, if any: because each stock
update overwrites the product's stock with a value computed from its own
snapshot, the last matching detail determines the final stock. -/
def lastDetailFor (ds : List ProductDetail) (pid : Nat) : Option ProductDetail :=
  ds.reverse.find? (fun d => pid == d.id)

/-- The cumulative effect of the commit loop's stock updates on one product
row. -/
def applyLast (ds : List ProductDetail) (p : Product) : Product :=
  match lastDetailFor ds p.id with
  | some d => { p with stock_quantity := d.stock_quantity - d.quantity }
  | none => p

theorem applyOne_id (d : ProductDetail) (p : Product) : (applyOne d p).id = p.id := by
  unfold applyOne; split <;> rfl

theorem applyOne_user_id (d : ProductDetail) (p : Product) :
    (applyOne d p).user_id = p.user_id := by
  unfold applyOne; split <;> rfl

theorem applyLast_cons (d : ProductDetail) (ds : List ProductDetail) (p : Product) :
    applyLast ds (applyOne d p) = applyLast (d :: ds) p := by
  unfold applyLast lastDetailFor
  rw [applyOne_id, List.reverse_cons, List.find?_append]
  cases hfind : ds.reverse.find? (fun e => p.id == e.id) with
  | some e =>
    simp only [Option.or]
    unfold applyOne
    split <;> rfl
  | none =>
    simp only [Option.none_or, List.find?]
    unfold applyOne
    cases hpd : p.id == d.id <;> simp [hpd]

theorem applyLast_id (ds : List ProductDetail) (p : Product) :
    (applyLast ds p).id = p.id := by
  unfold applyLast; split <;> rfl

theorem applyLast_user_id (ds : List ProductDetail) (p : Product) :
    (applyLast ds p).user_id = p.user_id := by
  unfold applyLast; split <;> rfl

theorem commitItems_users (txId : Nat) (db : DB) (ds : List ProductDetail) :
    (commitItems txId db ds).users = db.users := by
  induction ds generalizing db with
  | nil => rfl
  | cons d ds ih => simpa [commitItems] using ih _

theorem commitItems_transactions (txId : Nat) (db : DB) (ds : List ProductDetail) :
    (commitItems txId db ds).transactions = db.transactions := by
  induction ds generalizing db with
  | nil => rfl
  | cons d ds ih => simpa [commitItems] using ih _

theorem commitItems_nextTransactionId (txId : Nat) (db : DB) (ds : List ProductDetail) :
    (commitItems txId db ds).nextTransactionId = db.nextTransactionId := by
  induction ds generalizing db with
  | nil => rfl
  | cons d ds ih => simpa [commitItems] using ih _

theorem commitItems_transactionItems (txId : Nat) (db : DB) (ds : List ProductDetail) :
    (commitItems txId db ds).transactionItems =
      db.transactionItems ++ rowsFrom db.nextItemId txId ds := by
  induction ds generalizing db with
  | nil =>
    show db.transactionItems = _
    simp [rowsFrom]
  | cons d ds ih =>
    simp only [commitItems, rowsFrom]
    rw [ih]
    simp

theorem commitItems_products (txId : Nat) (db : DB) (ds : List ProductDetail) :
    (commitItems txId db ds).products = db.products.map (applyLast ds) := by
  induction ds generalizing db with
  | nil =>
    show db.products = db.products.map (applyLast [])
    have h : db.products.map (applyLast []) = db.products.map id :=
      List.map_congr_left (fun p _ => rfl)
    rw [h, List.map_id]
  | cons d ds ih =>
    simp only [commitItems]
    rw [ih]
    simp only [applyDetail, List.map_map]
    apply List.map_congr_left
    intro p _
    exact applyLast_cons d ds p

theorem rowsFrom_length (itemId txId : Nat) (ds : List ProductDetail) :
    (rowsFrom itemId txId ds).length = ds.length := by
  induction ds generalizing itemId with
  | nil => rfl
  | cons d ds ih => simp [rowsFrom, ih]

theorem rowsFrom_map_pid_qty (itemId txId : Nat) (ds : List ProductDetail) :
    (rowsFrom itemId txId ds).map (fun r => (r.product_id, r.quantity)) =
      ds.map (fun d => (d.id, d.quantity)) := by
  induction ds generalizing itemId with
  | nil => rfl
  | cons d ds ih => simp [rowsFrom, ih]

/-! ## Facts about the product lookup -/

theorem findProduct_eq_some {db : DB} {pid uid : Nat} {p : Product}
    (h : findProduct db pid uid = some p) :
    p ∈ db.products ∧ p.id = pid ∧ p.user_id = uid := by
  refine ⟨List.mem_of_find?_eq_some h, ?_, ?_⟩
  · have := List.find?_some h
    simp only [Bool.and_eq_true, beq_iff_eq] at this
    exact this.1
  · have := List.find?_some h
    simp only [Bool.and_eq_true, beq_iff_eq] at this
    exact this.2

theorem find?_self_of_nodup_ids (ps : List Product)
    (hnd : (ps.map Product.id).Nodup) (p : Product) (hp : p ∈ ps)
    (uid : Nat) (hu : p.user_id = uid) :
    ps.find? (fun q => q.id == p.id && q.user_id == uid) = some p := by
  induction ps with
  | nil => cases hp
  | cons q qs ih =>
    simp only [List.map_cons, List.nodup_cons] at hnd
    rcases List.mem_cons.mp hp with rfl | hmem
    · exact List.find?_cons_of_pos _ (by simp [hu])
    · have hne : q.id ≠ p.id := by
        intro he
        exact hnd.1 (he ▸ List.mem_map.mpr ⟨p, hmem, rfl⟩)
      rw [List.find?_cons_of_neg _ (by simp [hne])]
      exact ih hnd.2 hmem

/-- In a table with pairwise-distinct product ids, the scoped lookup of a
product owned by the requesting user returns exactly that product row. -/
theorem findProduct_self {db : DB} (hnd : (db.products.map Product.id).Nodup)
    {p : Product} (hp : p ∈ db.products) {uid : Nat} (hu : p.user_id = uid) :
    findProduct db p.id uid = some p :=
  find?_self_of_nodup_ids db.products hnd p hp uid hu

/-! ## Facts about the validation loop -/

theorem validateItems_ok_details {db : DB} {uid : Nat} {items : List SaleItem}
    {ds : List ProductDetail} (h : validateItems db uid items = .ok ds) :
    ds = items.map (detailOf db uid) := by
  induction items generalizing ds with
  | nil =>
    simp only [validateItems, Except.ok.injEq] at h
    simp [← h]
  | cons it rest ih =>
    simp only [validateItems] at h
    split at h
    · cases h
    next p hfp =>
      split at h
      · cases h
      split at h
      · cases h
      next ds' hv =>
        simp only [Except.ok.injEq] at h
        subst h
        simp only [List.map_cons, detailOf, hfp]
        rw [ih hv]

theorem validateItems_ok_sufficient {db : DB} {uid : Nat} {items : List SaleItem}
    {ds : List ProductDetail} (h : validateItems db uid items = .ok ds) :
    ∀ d ∈ ds, d.quantity ≤ d.stock_quantity := by
  induction items generalizing ds with
  | nil =>
    simp only [validateItems, Except.ok.injEq] at h
    subst h
    intro d hd
    cases hd
  | cons it rest ih =>
    simp only [validateItems] at h
    split at h
    · cases h
    next p hfp =>
      split at h
      · cases h
      next hs =>
        split at h
        · cases h
        next ds' hv =>
          simp only [Except.ok.injEq] at h
          subst h
          intro d hd
          rcases List.mem_cons.mp hd with rfl | hmem
          · exact not_lt.mp hs
          · exact ih hv d hmem

theorem validateItems_ok_resolves {db : DB} {uid : Nat} {items : List SaleItem}
    {ds : List ProductDetail} (h : validateItems db uid items = .ok ds) :
    ∀ it ∈ items, ∃ p, findProduct db it.product_id uid = some p ∧
      it.quantity ≤ p.stock_quantity := by
  induction items generalizing ds with
  | nil => intro it hit; cases hit
  | cons j rest ih =>
    simp only [validateItems] at h
    split at h
    · cases h
    next p hfp =>
      split at h
      · cases h
      next hs =>
        split at h
        · cases h
        next ds' hv =>
          intro it hit
          rcases List.mem_cons.mp hit with rfl | hmem
          · exact ⟨p, hfp, not_lt.mp hs⟩
          · exact ih hv it hmem

theorem validateItems_ok_of_forall {db : DB} {uid : Nat} {items : List SaleItem}
    (h : ∀ it ∈ items, ∃ p, findProduct db it.product_id uid = some p ∧
      it.quantity ≤ p.stock_quantity) :
    ∃ ds, validateItems db uid items = .ok ds := by
  induction items with
  | nil => exact ⟨[], rfl⟩
  | cons it rest ih =>
    obtain ⟨p, hp, hs⟩ := h it (List.mem_cons_self it rest)
    obtain ⟨ds, hds⟩ := ih (fun j hj => h j (List.mem_cons_of_mem it hj))
    refine ⟨mkDetail p it :: ds, ?_⟩
    simp [validateItems, hp, not_lt.mpr hs, hds]

theorem validateItems_insufficient {db : DB} {uid : Nat} {items : List SaleItem}
    (hres : ∀ it ∈ items, (findProduct db it.product_id uid).isSome = true)
    (hbad : ∃ it ∈ items, ∃ p, findProduct db it.product_id uid = some p ∧
      p.stock_quantity < it.quantity) :
    ∃ it ∈ items, ∃ p, findProduct db it.product_id uid = some p ∧
      p.stock_quantity < it.quantity ∧
      validateItems db uid items =
        .error (.insufficientStock p.id p.name p.stock_quantity it.quantity) := by
  induction items with
  | nil =>
    obtain ⟨it, hit, _⟩ := hbad
    cases hit
  | cons j rest ih =>
    obtain ⟨p, hp⟩ := Option.isSome_iff_exists.mp (hres j (List.mem_cons_self j rest))
    by_cases hs : p.stock_quantity < j.quantity
    · refine ⟨j, List.mem_cons_self j rest, p, hp, hs, ?_⟩
      simp [validateItems, hp, hs]
    · have hbad' : ∃ it ∈ rest, ∃ q, findProduct db it.product_id uid = some q ∧
          q.stock_quantity < it.quantity := by
        obtain ⟨it, hit, q, hq, hlt⟩ := hbad
        rcases List.mem_cons.mp hit with rfl | hmem
        · rw [hp] at hq
          cases hq
          exact absurd hlt hs
        · exact ⟨it, hmem, q, hq, hlt⟩
      obtain ⟨it, hmem, q, hq, hlt, herr⟩ :=
        ih (fun x hx => hres x (List.mem_cons_of_mem j hx)) hbad'
      refine ⟨it, List.mem_cons_of_mem j hmem, q, hq, hlt, ?_⟩
      simp [validateItems, hp, hs, herr]

theorem validateItems_notFound (db : DB) (uid : Nat) (pre : List SaleItem)
    (it : SaleItem) (rest : List SaleItem)
    (hpre : ∀ j ∈ pre, ∃ p, findProduct db j.product_id uid = some p ∧
      j.quantity ≤ p.stock_quantity)
    (hmiss : findProduct db it.product_id uid = none) :
    validateItems db uid (pre ++ it :: rest) =
      .error (.productNotFound it.product_id) := by
  induction pre with
  | nil => simp [validateItems, hmiss]
  | cons j pre' ih =>
    obtain ⟨p, hp, hs⟩ := hpre j (List.mem_cons_self j pre')
    have ih' := ih (fun x hx => hpre x (List.mem_cons_of_mem j hx))
    simp [validateItems, hp, not_lt.mpr hs, ih']

/-! ## Branch characterizations of createSale -/

theorem createSale_userNotFound {db : DB} {items : List SaleItem} {uid : Nat}
    (hu : uid ∉ db.users) :
    createSale db items uid = (db, .error .userNotFound) := by
  unfold createSale
  rw [if_neg (fun hc => hu (List.elem_iff.mp hc))]

theorem createSale_err_def {db : DB} {items : List SaleItem} {uid : Nat}
    {e : SaleError} (hu : uid ∈ db.users)
    (hv : validateItems db uid items = .error e) :
    createSale db items uid = (db, .error e) := by
  unfold createSale
  rw [if_pos (List.elem_iff.mpr hu), hv]

theorem createSale_ok_def {db : DB} {items : List SaleItem} {uid : Nat}
    {ds : List ProductDetail} (hu : uid ∈ db.users)
    (hv : validateItems db uid items = .ok ds) :
    createSale db items uid =
      (commitItems db.nextTransactionId
        { db with
          transactions := db.transactions ++
            [⟨db.nextTransactionId, uid, (ds.map (fun d => d.subtotal)).sum⟩]
          nextTransactionId := db.nextTransactionId + 1 } ds,
       .ok ⟨db.nextTransactionId, uid, (ds.map (fun d => d.subtotal)).sum⟩) := by
  unfold createSale
  rw [if_pos (List.elem_iff.mpr hu), hv]

theorem createSale_ok_elim {db : DB} {items : List SaleItem} {uid : Nat}
    {tx : TransactionRow} (h : (createSale db items uid).2 = .ok tx) :
    uid ∈ db.users ∧ ∃ ds, validateItems db uid items = .ok ds ∧
      tx = ⟨db.nextTransactionId, uid, (ds.map (fun d => d.subtotal)).sum⟩ ∧
      (createSale db items uid).1 =
        commitItems db.nextTransactionId
          { db with
            transactions := db.transactions ++ [tx]
            nextTransactionId := db.nextTransactionId + 1 } ds := by
  by_cases hu : uid ∈ db.users
  · cases hv : validateItems db uid items with
    | error e => rw [createSale_err_def hu hv] at h; cases h
    | ok ds =>
      rw [createSale_ok_def hu hv] at h
      simp only [Except.ok.injEq] at h
      subst h
      exact ⟨hu, ds, rfl, rfl, by rw [createSale_ok_def hu hv]⟩
  · rw [createSale_userNotFound hu] at h
    cases h

theorem createSale_fst_ok {db : DB} {items : List SaleItem} {uid : Nat}
    {ds : List ProductDetail} (hu : uid ∈ db.users)
    (hv : validateItems db uid items = .ok ds) :
    (createSale db items uid).1 =
      commitItems db.nextTransactionId
        { db with
          transactions := db.transactions ++
            [⟨db.nextTransactionId, uid, (ds.map (fun d => d.subtotal)).sum⟩]
          nextTransactionId := db.nextTransactionId + 1 } ds := by
  rw [createSale_ok_def hu hv]

theorem createSale_fst_of_err {db : DB} {items : List SaleItem} {uid : Nat}
    {e : SaleError} (hu : uid ∈ db.users)
    (hv : validateItems db uid items = .error e) :
    (createSale db items uid).1 = db := by
  rw [createSale_err_def hu hv]

/-! ## The sale attempts a state can undergo (for the stock invariant) -/

/-- Run a sequence of `createSale` attempts, keeping the database state each
attempt leaves behind (whether it succeeded or failed). -/
def runSales (db : DB) (attempts : List (List SaleItem × Nat)) : DB :=
  attempts.foldl (fun d a => (createSale d a.1 a.2).1) db

theorem createSale_preserves_stock_nonneg (db : DB) (items : List SaleItem)
    (uid : Nat) (h : ∀ p ∈ db.products, 0 ≤ p.stock_quantity) :
    ∀ p ∈ (createSale db items uid).1.products, 0 ≤ p.stock_quantity := by
  by_cases hu : uid ∈ db.users
  · cases hv : validateItems db uid items with
    | error e => rw [createSale_fst_of_err hu hv]; exact h
    | ok ds =>
      rw [createSale_fst_ok hu hv, commitItems_products]
      intro p hp
      obtain ⟨q, hq, rfl⟩ := List.mem_map.mp hp
      show 0 ≤ (applyLast ds q).stock_quantity
      unfold applyLast
      split
      next d hld =>
        have hd : d ∈ ds := List.mem_reverse.mp (List.mem_of_find?_eq_some hld)
        have hsuff := validateItems_ok_sufficient hv d hd
        show 0 ≤ d.stock_quantity - d.quantity
        omega
      next => exact h q hq
  · rw [show (createSale db items uid).1 = db from by rw [createSale_userNotFound hu]]
    exact h

/-! ## Claim theorems -/

/-- C2: for every product and after every sequence of createSale attempts
(each attempt succeeding or failing), the product's stock_quantity is never
negative — provided every product started with non-negative stock, which is
what the catalog's input validation (`z.number().int().nonnegative()`)
guarantees. -/
theorem stock_never_negative (db : DB) (attempts : List (List SaleItem × Nat))
    (h : ∀ p ∈ db.products, 0 ≤ p.stock_quantity) :
    ∀ p ∈ (runSales db attempts).products, 0 ≤ p.stock_quantity := by
  induction attempts generalizing db with
  | nil => exact h
  | cons a rest ih => exact ih _ (createSale_preserves_stock_nonneg db a.1 a.2 h)

/-- Concrete state for the C2 witness: one user owning one product with
stock 3. -/
def dbC2 : DB :=
  { users := [1]
    products := [⟨1, "Coffee", 4, 3, 1⟩]
    transactions := []
    transactionItems := []
    nextTransactionId := 1
    nextItemId := 1 }

unseal Rat.mul Rat.add in
/-- Witness for C2: after a succeeding attempt (2 of 3 in stock) followed by a
failing attempt (2 requested, 1 left), every stock level is still
non-negative. -/
theorem stock_never_negative_witness :
    (runSales dbC2 [([⟨1, 2⟩], 1), ([⟨1, 2⟩], 1)]).products.all
      (fun p => decide (0 ≤ p.stock_quantity)) = true := by
  have h := stock_never_negative dbC2 [([⟨1, 2⟩], 1), ([⟨1, 2⟩], 1)] (by decide)
  exact List.all_eq_true.mpr (fun p hp => decide_eq_true (h p hp))

/-- C1: a sale request in which every line resolves to a product of the
requesting user but at least one line requests more than the available stock
fails with an `insufficientStock` error naming the product, the quantity
requested and the quantity available, and leaves the database exactly as it
was: no stock change, no transaction row, no line-item row — regardless of the
other, individually satisfiable lines of the same cart. -/
theorem createSale_insufficient_aborts (db : DB) (items : List SaleItem)
    (uid : Nat) (hu : uid ∈ db.users)
    (hres : ∀ it ∈ items, (findProduct db it.product_id uid).isSome = true)
    (hbad : ∃ it ∈ items, ∃ p, findProduct db it.product_id uid = some p ∧
      p.stock_quantity < it.quantity) :
    ∃ it ∈ items, ∃ p, findProduct db it.product_id uid = some p ∧
      p.stock_quantity < it.quantity ∧
      createSale db items uid =
        (db, .error (.insufficientStock p.id p.name p.stock_quantity it.quantity)) := by
  obtain ⟨it, hmem, p, hp, hlt, herr⟩ := validateItems_insufficient hres hbad
  exact ⟨it, hmem, p, hp, hlt, createSale_err_def hu herr⟩

/-- Concrete state for the C1 witness: product 1 has stock 5, product 2 has
stock 2 (the spec's own atomicity example). -/
def dbC1 : DB :=
  { users := [1]
    products := [⟨1, "A", 5, 5, 1⟩, ⟨2, "B", 2, 2, 1⟩]
    transactions := []
    transactionItems := []
    nextTransactionId := 1
    nextItemId := 1 }

unseal Rat.mul Rat.add in
/-- Witness for C1: cart [(product 1, qty 3 — satisfiable), (product 2,
qty 5 — insufficient)] aborts with `insufficientStock` and no state change. -/
theorem createSale_insufficient_aborts_witness :
    ∃ it ∈ ([⟨1, 3⟩, ⟨2, 5⟩] : List SaleItem), ∃ p,
      findProduct dbC1 it.product_id 1 = some p ∧
      p.stock_quantity < it.quantity ∧
      createSale dbC1 [⟨1, 3⟩, ⟨2, 5⟩] 1 =
        (dbC1, .error (.insufficientStock p.id p.name p.stock_quantity it.quantity)) :=
  createSale_insufficient_aborts dbC1 [⟨1, 3⟩, ⟨2, 5⟩] 1 (by decide) (by decide)
    ⟨⟨2, 5⟩, by decide, ⟨2, "B", 2, 2, 1⟩, by decide, by decide⟩

/-- C5: a sale request containing a line whose product id does not exist or
belongs to a different owner — while every line before it resolves with
sufficient stock — fails with a `productNotFound` error naming the offending
product id, and leaves the database unchanged. -/
theorem createSale_productNotFound_aborts (db : DB) (uid : Nat)
    (pre : List SaleItem) (it : SaleItem) (rest : List SaleItem)
    (hu : uid ∈ db.users)
    (hpre : ∀ j ∈ pre, ∃ p, findProduct db j.product_id uid = some p ∧
      j.quantity ≤ p.stock_quantity)
    (hmiss : findProduct db it.product_id uid = none) :
    createSale db (pre ++ it :: rest) uid =
      (db, .error (.productNotFound it.product_id)) :=
  createSale_err_def hu (validateItems_notFound db uid pre it rest hpre hmiss)

/-- Concrete state for the C5 witness: product 2 exists but belongs to user 2,
so it is invisible to user 1. -/
def dbC5 : DB :=
  { users := [1, 2]
    products := [⟨1, "A", 5, 10, 1⟩, ⟨2, "B", 4, 10, 2⟩]
    transactions := []
    transactionItems := []
    nextTransactionId := 1
    nextItemId := 1 }

unseal Rat.mul Rat.add in
/-- Witness for C5: user 1's cart [(product 1, qty 1), (product 2, qty 1)]
aborts with `productNotFound 2` (cross-owner access) and no state change. -/
theorem createSale_productNotFound_aborts_witness :
    createSale dbC5 ([⟨1, 1⟩] ++ ⟨2, 1⟩ :: []) 1 =
      (dbC5, .error (.productNotFound 2)) :=
  createSale_productNotFound_aborts dbC5 1 [⟨1, 1⟩] ⟨2, 1⟩ [] (by decide)
    (fun j hj => ⟨⟨1, "A", 5, 10, 1⟩, by
      rcases List.mem_singleton.mp hj with rfl
      exact ⟨by decide, by decide⟩⟩)
    (by decide)

/-- C4: a sale request whose item list is empty, or that contains a line with
requested quantity ≤ 0, is rejected by the input schema with a
`validationError` before the handler runs: the result is the same for every
database state, and the state is returned unchanged. -/
theorem createSaleRoute_rejects_invalid (db : DB) (items : List SaleItem)
    (uid : Nat) (h : items = [] ∨ ∃ it ∈ items, it.quantity ≤ 0) :
    createSaleRoute db items uid = (db, .error .validationError) := by
  unfold createSaleRoute
  rcases h with rfl | ⟨it, hit, hq⟩
  · rfl
  · have hany : items.any (fun it => decide (it.quantity ≤ 0)) = true :=
      List.any_eq_true.mpr ⟨it, hit, by simpa using hq⟩
    rw [hany]
    simp

/-- Concrete state for the C4 witness. -/
def dbC4 : DB :=
  { users := [1]
    products := [⟨1, "A", 5, 10, 1⟩]
    transactions := []
    transactionItems := []
    nextTransactionId := 1
    nextItemId := 1 }

/-- Witness for C4: a cart whose only line requests quantity 0 is rejected
with `validationError`, with no effect on the state. -/
theorem createSaleRoute_rejects_invalid_witness :
    createSaleRoute dbC4 [⟨1, 0⟩] 1 = (dbC4, .error .validationError) :=
  createSaleRoute_rejects_invalid dbC4 [⟨1, 0⟩] 1
    (Or.inr ⟨⟨1, 0⟩, by decide, by decide⟩)

unseal Rat.mul Rat.add in
/-- Counterexample to C9: `createSale` does re-validate the supplied user id.
In a state whose user table is empty, a sale for user 7 against user 7's own
product fails with `userNotFound`; the identical call after only adding 7 to
the user table succeeds.  So there is an input on which createSale fails
solely because the supplied user id does not exist in the user store,
contradicting the claim that the id is consumed as a trusted precondition. -/
theorem createSale_trusted_user_cex :
    createSale
      { users := [], products := [⟨1, "Widget", 5, 10, 7⟩], transactions := [],
        transactionItems := [], nextTransactionId := 1, nextItemId := 1 }
      [⟨1, 2⟩] 7 =
      ({ users := [], products := [⟨1, "Widget", 5, 10, 7⟩], transactions := [],
         transactionItems := [], nextTransactionId := 1, nextItemId := 1 },
       .error .userNotFound) ∧
    (createSale
      { users := [7], products := [⟨1, "Widget", 5, 10, 7⟩], transactions := [],
        transactionItems := [], nextTransactionId := 1, nextItemId := 1 }
      [⟨1, 2⟩] 7).2 = .ok ⟨1, 7, 10⟩ := by
  constructor
  · exact createSale_userNotFound (by simp)
  · decide

/-- C9 (amended): `createSale` verifies the supplied user id against the user
store before anything else: whenever the id is absent it fails with
`userNotFound`, for every database state and cart, leaving the state
unchanged. -/
theorem createSale_rejects_unknown_user (db : DB) (items : List SaleItem)
    (uid : Nat) (hu : uid ∉ db.users) :
    createSale db items uid = (db, .error .userNotFound) :=
  createSale_userNotFound hu

/-- Witness for the amended C9: user 9 is unknown in `dbC4`-like state. -/
def dbC9 : DB :=
  { users := [1]
    products := [⟨1, "A", 5, 10, 1⟩]
    transactions := []
    transactionItems := []
    nextTransactionId := 1
    nextItemId := 1 }

/-- Witness for the amended C9: a sale for the unknown user 9 returns
`userNotFound` and the unchanged state. -/
theorem createSale_rejects_unknown_user_witness :
    createSale dbC9 [⟨1, 1⟩] 9 = (dbC9, .error .userNotFound) :=
  createSale_rejects_unknown_user dbC9 [⟨1, 1⟩] 9 (by decide)

/-! ## Pointwise facts about resolved pricing details -/

theorem detailOf_id (db : DB) (uid : Nat) (it : SaleItem) :
    (detailOf db uid it).id = it.product_id := by
  unfold detailOf
  split
  next p hfp => exact (findProduct_eq_some hfp).2.1
  next => rfl

theorem detailOf_quantity (db : DB) (uid : Nat) (it : SaleItem) :
    (detailOf db uid it).quantity = it.quantity := by
  unfold detailOf
  split <;> rfl

theorem detailOf_subtotal (db : DB) (uid : Nat) (it : SaleItem) :
    (detailOf db uid it).subtotal = priceAt db uid it * (it.quantity : Rat) := by
  unfold detailOf priceAt
  cases hfp : findProduct db it.product_id uid with
  | some p => rfl
  | none => exact (zero_mul _).symm

/-- `updateProduct` rewrites only the `products` table: the transaction ledger
and its line items are untouched on both the found and the not-found path. -/
theorem updateProduct_preserves_ledger (db : DB) (upd : UpdateProductInput)
    (uid : Nat) :
    ((updateProduct db upd uid).1).transactionItems = db.transactionItems ∧
    ((updateProduct db upd uid).1).transactions = db.transactions := by
  unfold updateProduct
  split
  · exact ⟨rfl, rfl⟩
  · exact ⟨rfl, rfl⟩

/-- C7: committing a sale and then updating the sold product (in particular
changing its price) leaves every committed line item untouched: the
`transaction_items` table after the update is exactly the table the sale
committed — the rows priced from the sale-time snapshot of the product
table. -/
theorem priceUpdate_preserves_lineItems (db : DB) (items : List SaleItem)
    (uid : Nat) (tx : TransactionRow) (upd : UpdateProductInput) (uid2 : Nat)
    (h : (createSale db items uid).2 = .ok tx) :
    ((updateProduct (createSale db items uid).1 upd uid2).1).transactionItems =
      ((createSale db items uid).1).transactionItems ∧
    ((updateProduct (createSale db items uid).1 upd uid2).1).transactionItems =
      db.transactionItems ++
        rowsFrom db.nextItemId tx.id (items.map (detailOf db uid)) := by
  obtain ⟨hu, ds, hv, htx, hfst⟩ := createSale_ok_elim h
  have hledger := (updateProduct_preserves_ledger (createSale db items uid).1 upd uid2).1
  refine ⟨hledger, ?_⟩
  rw [hledger, hfst, commitItems_transactionItems, ← validateItems_ok_details hv, htx]

/-- Concrete state for the C7 witness. -/
def dbC7 : DB :=
  { users := [1]
    products := [⟨1, "A", 5, 10, 1⟩]
    transactions := []
    transactionItems := []
    nextTransactionId := 1
    nextItemId := 1 }

unseal Rat.mul Rat.add in
/-- Witness for C7: sell 2 units of product 1 at price 5, then raise the
price to 9 — the committed line item still records the sale-time snapshot. -/
theorem priceUpdate_preserves_lineItems_witness :
    ((updateProduct (createSale dbC7 [⟨1, 2⟩] 1).1 ⟨1, none, some 9, none⟩ 1).1).transactionItems =
      ((createSale dbC7 [⟨1, 2⟩] 1).1).transactionItems ∧
    ((updateProduct (createSale dbC7 [⟨1, 2⟩] 1).1 ⟨1, none, some 9, none⟩ 1).1).transactionItems =
      dbC7.transactionItems ++
        rowsFrom dbC7.nextItemId (1 : Nat) (([⟨1, 2⟩] : List SaleItem).map (detailOf dbC7 1)) :=
  priceUpdate_preserves_lineItems dbC7 [⟨1, 2⟩] 1 ⟨1, 1, 10⟩ ⟨1, none, some 9, none⟩ 1
    (by decide)

/-! ## The ordering claim -/

/-- Modelled from the spec: insertion of a cart line into a list already
sorted by ascending product id. -/
def insertByPid (it : SaleItem) : List SaleItem → List SaleItem
  | [] => [it]
  | x :: xs =>
    if it.product_id ≤ x.product_id then it :: x :: xs else x :: insertByPid it xs

/-- Modelled from the spec: the cart lines sorted by ascending product id. -/
def sortByPid (items : List SaleItem) : List SaleItem :=
  items.foldr insertByPid []

/-- Modelled from the spec ("lines must be processed for locking purposes in a
fixed, deterministic order (e.g., ascending product id) regardless of the
order the caller listed them in the cart.  The returned LineItems preserve the
caller's original cart order."): a sale-commitment variant that runs the
validation/decrement phase over the lines in ascending product-id order while
persisting line items in the caller's order.  Used only to compare observable
behavior against the actual `createSale`. -/
def createSaleAscending (db : DB) (items : List SaleItem) (uid : Nat) :
    DB × Except SaleError TransactionRow :=
  if db.users.contains uid then
    match validateItems db uid (sortByPid items) with
    | .error e => (db, .error e)
    | .ok _ =>
      match validateItems db uid items with
      | .error e => (db, .error e)
      | .ok ds =>
        let total : Rat := (ds.map (fun d => d.subtotal)).sum
        let tx : TransactionRow :=
          { id := db.nextTransactionId, user_id := uid, total_amount := total }
        let db1 : DB :=
          { db with
            transactions := db.transactions ++ [tx]
            nextTransactionId := db.nextTransactionId + 1 }
        (commitItems tx.id db1 ds, .ok tx)
  else (db, .error .userNotFound)

/-- Concrete state for the C6 counterexample: both products are out of
stock. -/
def dbC6 : DB :=
  { users := [1]
    products := [⟨1, "A", 10, 0, 1⟩, ⟨2, "B", 10, 0, 1⟩]
    transactions := []
    transactionItems := []
    nextTransactionId := 1
    nextItemId := 1 }

unseal Rat.mul Rat.add in
/-- Counterexample to C6: with both products out of stock and the cart listing
product 2 before product 1, `createSale` reports `insufficientStock` for
product 2 — the first line in the caller's order — while processing in
ascending product-id order (as the claim states) would have reported product 1
first.  Lines are therefore not processed in a fixed ascending product-id
order. -/
theorem createSale_ascending_order_cex :
    (createSale dbC6 [⟨2, 5⟩, ⟨1, 5⟩] 1).2 =
      .error (.insufficientStock 2 "B" 0 5) ∧
    (createSaleAscending dbC6 [⟨2, 5⟩, ⟨1, 5⟩] 1).2 =
      .error (.insufficientStock 1 "A" 0 5) ∧
    (createSale dbC6 [⟨2, 5⟩, ⟨1, 5⟩] 1).2 ≠
      (createSaleAscending dbC6 [⟨2, 5⟩, ⟨1, 5⟩] 1).2 := by
  refine ⟨by decide, by decide, by decide⟩

/-- C6 (amended): `createSale` processes the cart lines in the caller's
original order — validation stops at the first offending line in that order
and there is no reordering by product id — and the persisted line items
likewise preserve the caller's original cart order: on success the new
`transaction_items` rows list the carts' (product id, quantity) pairs in
exactly the order the caller gave them. -/
theorem createSale_lineItems_in_cart_order (db : DB) (items : List SaleItem)
    (uid : Nat) (tx : TransactionRow)
    (h : (createSale db items uid).2 = .ok tx) :
    ((createSale db items uid).1).transactionItems.map
        (fun r => (r.product_id, r.quantity)) =
      db.transactionItems.map (fun r => (r.product_id, r.quantity)) ++
      items.map (fun it => (it.product_id, it.quantity)) := by
  obtain ⟨hu, ds, hv, htx, hfst⟩ := createSale_ok_elim h
  rw [hfst, commitItems_transactionItems, List.map_append, rowsFrom_map_pid_qty,
    validateItems_ok_details hv, List.map_map]
  congr 1
  apply List.map_congr_left
  intro it _
  show ((detailOf db uid it).id, (detailOf db uid it).quantity) =
    (it.product_id, it.quantity)
  rw [detailOf_id, detailOf_quantity]

/-- Concrete state for the C6 amended-claim witness. -/
def dbC6ok : DB :=
  { users := [1]
    products := [⟨1, "A", 3, 5, 1⟩, ⟨2, "B", 4, 7, 1⟩]
    transactions := []
    transactionItems := []
    nextTransactionId := 1
    nextItemId := 1 }

unseal Rat.mul Rat.add in
/-- Witness for the amended C6: a cart listing product 2 before product 1
commits line items in exactly that caller order. -/
theorem createSale_lineItems_in_cart_order_witness :
    ((createSale dbC6ok [⟨2, 1⟩, ⟨1, 2⟩] 1).1).transactionItems.map
        (fun r => (r.product_id, r.quantity)) =
      dbC6ok.transactionItems.map (fun r => (r.product_id, r.quantity)) ++
      ([⟨2, 1⟩, ⟨1, 2⟩] : List SaleItem).map (fun it => (it.product_id, it.quantity)) :=
  createSale_lineItems_in_cart_order dbC6ok [⟨2, 1⟩, ⟨1, 2⟩] 1 ⟨1, 1, 10⟩ (by decide)

/-! ## Final stock after a commit -/

theorem find?_first_of_nodup_map {α β : Type} [BEq β] [LawfulBEq β] (f : α → β)
    (l : List α) (hnd : (l.map f).Nodup) (a : α) (ha : a ∈ l) :
    l.find? (fun x => f a == f x) = some a := by
  induction l with
  | nil => cases ha
  | cons x xs ih =>
    simp only [List.map_cons, List.nodup_cons] at hnd
    rcases List.mem_cons.mp ha with rfl | hmem
    · exact List.find?_cons_of_pos _ (by simp)
    · have hne : f a ≠ f x := by
        intro he
        exact hnd.1 (he ▸ List.mem_map.mpr ⟨a, hmem, rfl⟩)
      rw [List.find?_cons_of_neg _ (by simp [hne])]
      exact ih hnd.2 hmem

/-- The stock the commit loop leaves on a product is determined by the last
cart line whose product id matches: later duplicate lines overwrite earlier
ones, each writing `snapshot stock - own quantity`. -/
theorem applyLast_stock_of_last (db : DB) (uid : Nat) (items : List SaleItem)
    (p : Product) (itL : SaleItem)
    (hfind : findProduct db itL.product_id uid = some p)
    (hlast : items.reverse.find? (fun it => p.id == it.product_id) = some itL) :
    (applyLast (items.map (detailOf db uid)) p).stock_quantity
      = p.stock_quantity - itL.quantity := by
  unfold applyLast lastDetailFor
  rw [show (items.map (detailOf db uid)).reverse
        = items.reverse.map (detailOf db uid) from (List.map_reverse _ _).symm,
    List.find?_map]
  have hpred : ((fun d => p.id == d.id) ∘ detailOf db uid)
      = (fun it => p.id == it.product_id) := by
    funext it
    show (p.id == (detailOf db uid it).id) = _
    rw [detailOf_id]
  rw [hpred, hlast]
  have hdet : detailOf db uid itL = mkDetail p itL := by
    unfold detailOf
    rw [hfind]
  simp only [Option.map_some']
  rw [hdet]
  rfl

/-- When the cart has no duplicate product ids, the line that determines a
resolved product's final stock is the line that resolved it. -/
theorem applyLast_stock_unique (db : DB) (uid : Nat) (items : List SaleItem)
    (hni : (items.map SaleItem.product_id).Nodup)
    (it : SaleItem) (hit : it ∈ items) (p : Product)
    (hp : findProduct db it.product_id uid = some p) :
    (applyLast (items.map (detailOf db uid)) p).stock_quantity
      = p.stock_quantity - it.quantity := by
  have hpid : p.id = it.product_id := (findProduct_eq_some hp).2.1
  have hndrev : (items.reverse.map SaleItem.product_id).Nodup := by
    rw [List.map_reverse]
    exact List.nodup_reverse.mpr hni
  have hlast : items.reverse.find? (fun x => p.id == x.product_id) = some it := by
    rw [hpid]
    exact find?_first_of_nodup_map _ _ hndrev it (List.mem_reverse.mpr hit)
  exact applyLast_stock_of_last db uid items p it hp hlast

/-- The scoped product lookup commutes with the commit loop's stock rewrite:
the rewrite changes stock only, never ids or owners. -/
theorem find?_products_map_applyLast (ps : List Product) (ds : List ProductDetail)
    (pid uid : Nat) :
    (ps.map (applyLast ds)).find? (fun p => p.id == pid && p.user_id == uid)
      = (ps.find? (fun p => p.id == pid && p.user_id == uid)).map (applyLast ds) := by
  rw [List.find?_map]
  have hpred : ((fun p : Product => p.id == pid && p.user_id == uid) ∘ applyLast ds)
      = (fun p : Product => p.id == pid && p.user_id == uid) := by
    funext p
    show ((applyLast ds p).id == pid && (applyLast ds p).user_id == uid) = _
    rw [applyLast_id, applyLast_user_id]
  rw [hpred]

/-- C10 (implicit behavior on duplicate cart lines): every line is validated
against the stock read before any write; each stock write stores
`pre-sale stock - that line's quantity`, so after a successful sale the
product's final stock is its pre-sale stock minus only the LAST matching
line's quantity — earlier duplicates' decrements are overwritten — while the
transaction total still charges for every line and one line-item row is
written per line. -/
theorem createSale_duplicate_lines_last_write_wins (db : DB)
    (items : List SaleItem) (uid : Nat) (tx : TransactionRow)
    (hnd : (db.products.map Product.id).Nodup)
    (h : (createSale db items uid).2 = .ok tx)
    (p : Product) (hp : p ∈ db.products) (hup : p.user_id = uid)
    (itL : SaleItem)
    (hlast : items.reverse.find? (fun it => p.id == it.product_id) = some itL) :
    (∃ p', p' ∈ ((createSale db items uid).1).products ∧ p'.id = p.id ∧
      p'.stock_quantity = p.stock_quantity - itL.quantity) ∧
    tx.total_amount =
      (items.map (fun it => priceAt db uid it * (it.quantity : Rat))).sum ∧
    ((createSale db items uid).1).transactionItems.length =
      db.transactionItems.length + items.length := by
  obtain ⟨hu, ds, hv, htx, hfst⟩ := createSale_ok_elim h
  have hds := validateItems_ok_details hv
  refine ⟨⟨applyLast ds p, ?_, applyLast_id ds p, ?_⟩, ?_, ?_⟩
  · rw [hfst, commitItems_products]
    exact List.mem_map.mpr ⟨p, hp, rfl⟩
  · have hpidL : p.id = itL.product_id := by
      have := List.find?_some hlast
      simpa using this
    have hfind : findProduct db itL.product_id uid = some p := by
      rw [← hpidL]
      exact findProduct_self hnd hp hup
    rw [hds]
    exact applyLast_stock_of_last db uid items p itL hfind hlast
  · rw [htx]
    show (ds.map (fun d => d.subtotal)).sum = _
    rw [hds, List.map_map]
    congr 1
    apply List.map_congr_left
    intro it _
    exact detailOf_subtotal db uid it
  · rw [hfst, commitItems_transactionItems, List.length_append, rowsFrom_length,
      hds, List.length_map]

/-- Concrete state for the C10 witness: one product with stock 5 and
price 4. -/
def dbC10 : DB :=
  { users := [1]
    products := [⟨1, "A", 4, 5, 1⟩]
    transactions := []
    transactionItems := []
    nextTransactionId := 1
    nextItemId := 1 }

unseal Rat.mul Rat.add in
/-- Witness for C10: the cart [(product 1, qty 3), (product 1, qty 3)] asks
for 6 of a stock of 5 yet commits (each line is checked against the pre-sale
read of 5); the total charges for both lines (24 = 2 × 3 × 4) while the final
stock is 5 − 3 = 2, the last line's decrement having overwritten the
first's. -/
theorem createSale_duplicate_lines_last_write_wins_witness :
    (∃ p', p' ∈ ((createSale dbC10 [⟨1, 3⟩, ⟨1, 3⟩] 1).1).products ∧
      p'.id = (⟨1, "A", 4, 5, 1⟩ : Product).id ∧
      p'.stock_quantity = (⟨1, "A", 4, 5, 1⟩ : Product).stock_quantity -
        (⟨1, 3⟩ : SaleItem).quantity) ∧
    (⟨1, 1, 24⟩ : TransactionRow).total_amount =
      (([⟨1, 3⟩, ⟨1, 3⟩] : List SaleItem).map
        (fun it => priceAt dbC10 1 it * (it.quantity : Rat))).sum ∧
    ((createSale dbC10 [⟨1, 3⟩, ⟨1, 3⟩] 1).1).transactionItems.length =
      dbC10.transactionItems.length + ([⟨1, 3⟩, ⟨1, 3⟩] : List SaleItem).length :=
  createSale_duplicate_lines_last_write_wins dbC10 [⟨1, 3⟩, ⟨1, 3⟩] 1 ⟨1, 1, 24⟩
    (by decide) (by decide) ⟨1, "A", 4, 5, 1⟩ (by decide) (by decide) ⟨1, 3⟩
    (by decide)

/-- C8: submitting the identical sale request twice in sequence — with
distinct product ids in the cart and stock sufficient for both rounds —
produces two committed transactions with distinct ids, both present in the
ledger afterwards, and decrements each product's stock twice by the requested
quantity: there is no implicit deduplication of repeated requests. -/
theorem createSale_not_idempotent (db : DB) (items : List SaleItem) (uid : Nat)
    (hu : uid ∈ db.users)
    (hni : (items.map SaleItem.product_id).Nodup)
    (hq : ∀ it ∈ items, 0 ≤ it.quantity)
    (hstock : ∀ it ∈ items, ∃ p, findProduct db it.product_id uid = some p ∧
      2 * it.quantity ≤ p.stock_quantity) :
    ∃ tx1 tx2 : TransactionRow,
      (createSale db items uid).2 = .ok tx1 ∧
      (createSale (createSale db items uid).1 items uid).2 = .ok tx2 ∧
      tx1.id ≠ tx2.id ∧
      tx1 ∈ ((createSale (createSale db items uid).1 items uid).1).transactions ∧
      tx2 ∈ ((createSale (createSale db items uid).1 items uid).1).transactions ∧
      ∀ it ∈ items, ∀ p, findProduct db it.product_id uid = some p →
        ∃ p', p' ∈ ((createSale (createSale db items uid).1 items uid).1).products ∧
          p'.id = it.product_id ∧
          p'.stock_quantity = p.stock_quantity - 2 * it.quantity := by
  have hres1 : ∀ it ∈ items, ∃ p, findProduct db it.product_id uid = some p ∧
      it.quantity ≤ p.stock_quantity := by
    intro it hit
    obtain ⟨p, hp, hs⟩ := hstock it hit
    exact ⟨p, hp, by have := hq it hit; omega⟩
  obtain ⟨ds, hv⟩ := validateItems_ok_of_forall hres1
  have hds := validateItems_ok_details hv
  have hok1 : (createSale db items uid).2 =
      .ok ⟨db.nextTransactionId, uid, (ds.map (fun d => d.subtotal)).sum⟩ := by
    rw [createSale_ok_def hu hv]
  have hfst1 := createSale_fst_ok hu hv
  have hdb1p : (createSale db items uid).1.products =
      db.products.map (applyLast ds) := by
    rw [hfst1, commitItems_products]
  have hdb1u : (createSale db items uid).1.users = db.users := by
    rw [hfst1, commitItems_users]
  have hdb1t : (createSale db items uid).1.transactions = db.transactions ++
      [⟨db.nextTransactionId, uid, (ds.map (fun d => d.subtotal)).sum⟩] := by
    rw [hfst1, commitItems_transactions]
  have hdb1n : (createSale db items uid).1.nextTransactionId =
      db.nextTransactionId + 1 := by
    rw [hfst1, commitItems_nextTransactionId]
  have hfind1 : ∀ it ∈ items, ∀ p, findProduct db it.product_id uid = some p →
      findProduct (createSale db items uid).1 it.product_id uid =
        some (applyLast ds p) := by
    intro it hit p hp
    unfold findProduct
    rw [hdb1p, find?_products_map_applyLast]
    show (findProduct db it.product_id uid).map (applyLast ds) = _
    rw [hp]
    rfl
  have hstock1 : ∀ it ∈ items, ∀ p, findProduct db it.product_id uid = some p →
      (applyLast ds p).stock_quantity = p.stock_quantity - it.quantity := by
    intro it hit p hp
    rw [hds]
    exact applyLast_stock_unique db uid items hni it hit p hp
  have hres2 : ∀ it ∈ items, ∃ p',
      findProduct (createSale db items uid).1 it.product_id uid = some p' ∧
      it.quantity ≤ p'.stock_quantity := by
    intro it hit
    obtain ⟨p, hp, hs⟩ := hstock it hit
    refine ⟨applyLast ds p, hfind1 it hit p hp, ?_⟩
    rw [hstock1 it hit p hp]
    have := hq it hit
    omega
  obtain ⟨ds2, hv2⟩ := validateItems_ok_of_forall hres2
  have hds2 := validateItems_ok_details hv2
  have hu2 : uid ∈ (createSale db items uid).1.users := by
    rw [hdb1u]
    exact hu
  have hok2 : (createSale (createSale db items uid).1 items uid).2 =
      .ok ⟨(createSale db items uid).1.nextTransactionId, uid,
        (ds2.map (fun d => d.subtotal)).sum⟩ := by
    rw [createSale_ok_def hu2 hv2]
  have hfst2 := createSale_fst_ok hu2 hv2
  have hdb2p : (createSale (createSale db items uid).1 items uid).1.products =
      (createSale db items uid).1.products.map (applyLast ds2) := by
    rw [hfst2, commitItems_products]
  have hdb2t : (createSale (createSale db items uid).1 items uid).1.transactions =
      (createSale db items uid).1.transactions ++
        [⟨(createSale db items uid).1.nextTransactionId, uid,
          (ds2.map (fun d => d.subtotal)).sum⟩] := by
    rw [hfst2, commitItems_transactions]
  refine ⟨⟨db.nextTransactionId, uid, (ds.map (fun d => d.subtotal)).sum⟩,
    ⟨(createSale db items uid).1.nextTransactionId, uid,
      (ds2.map (fun d => d.subtotal)).sum⟩,
    hok1, hok2, ?_, ?_, ?_, ?_⟩
  · show db.nextTransactionId ≠ (createSale db items uid).1.nextTransactionId
    rw [hdb1n]
    omega
  · rw [hdb2t, hdb1t]
    simp
  · rw [hdb2t]
    simp
  · intro it hit p hp
    refine ⟨applyLast ds2 (applyLast ds p), ?_, ?_, ?_⟩
    · rw [hdb2p, hdb1p]
      exact List.mem_map.mpr ⟨applyLast ds p,
        List.mem_map.mpr ⟨p, (findProduct_eq_some hp).1, rfl⟩, rfl⟩
    · rw [applyLast_id, applyLast_id]
      exact (findProduct_eq_some hp).2.1
    · have hp1 := hfind1 it hit p hp
      have h1 := hstock1 it hit p hp
      have h2 : (applyLast ds2 (applyLast ds p)).stock_quantity =
          (applyLast ds p).stock_quantity - it.quantity := by
        rw [hds2]
        exact applyLast_stock_unique (createSale db items uid).1 uid items hni
          it hit (applyLast ds p) hp1
      rw [h2, h1]
      omega

/-- Concrete state for the C8 witness: two products with enough stock for two
identical sales. -/
def dbC8 : DB :=
  { users := [1]
    products := [⟨1, "A", 2, 10, 1⟩, ⟨2, "B", 3, 8, 1⟩]
    transactions := []
    transactionItems := []
    nextTransactionId := 1
    nextItemId := 1 }

unseal Rat.mul Rat.add in
/-- Witness for C8: the cart [(product 1, qty 3), (product 2, qty 2)]
submitted twice against stocks 10 and 8 commits twice, with distinct
transaction ids and stocks decremented to 4 and 4. -/
theorem createSale_not_idempotent_witness :
    ∃ tx1 tx2 : TransactionRow,
      (createSale dbC8 [⟨1, 3⟩, ⟨2, 2⟩] 1).2 = .ok tx1 ∧
      (createSale (createSale dbC8 [⟨1, 3⟩, ⟨2, 2⟩] 1).1 [⟨1, 3⟩, ⟨2, 2⟩] 1).2 =
        .ok tx2 ∧
      tx1.id ≠ tx2.id ∧
      tx1 ∈ ((createSale (createSale dbC8 [⟨1, 3⟩, ⟨2, 2⟩] 1).1
        [⟨1, 3⟩, ⟨2, 2⟩] 1).1).transactions ∧
      tx2 ∈ ((createSale (createSale dbC8 [⟨1, 3⟩, ⟨2, 2⟩] 1).1
        [⟨1, 3⟩, ⟨2, 2⟩] 1).1).transactions ∧
      ∀ it ∈ ([⟨1, 3⟩, ⟨2, 2⟩] : List SaleItem), ∀ p,
        findProduct dbC8 it.product_id 1 = some p →
        ∃ p', p' ∈ ((createSale (createSale dbC8 [⟨1, 3⟩, ⟨2, 2⟩] 1).1
            [⟨1, 3⟩, ⟨2, 2⟩] 1).1).products ∧
          p'.id = it.product_id ∧
          p'.stock_quantity = p.stock_quantity - 2 * it.quantity :=
  createSale_not_idempotent dbC8 [⟨1, 3⟩, ⟨2, 2⟩] 1 (by decide) (by decide)
    (by decide)
    (fun it hit => by
      rcases List.mem_cons.mp hit with rfl | hit2
      · exact ⟨⟨1, "A", 2, 10, 1⟩, by decide, by decide⟩
      · rcases List.mem_cons.mp hit2 with rfl | hit3
        · exact ⟨⟨2, "B", 3, 8, 1⟩, by decide, by decide⟩
        · cases hit3)

end POS
